import Mathlib

/-!
Shallow embedding of Shifty (shifty.core.js), a tweening engine.
Numbers are modelled as rationals.  A JavaScript object of numeric
properties is modelled as an association list with one entry per key
(JavaScript object keys are distinct).  Timer handles and `clearTimeout`
are not observable in this value-level model; what is modelled is the
delay each `scheduleUpdate` call computes, the state mutations, and the
trace of side effects a tick performs.
-/

namespace Shifty

/-- A JavaScript object holding numeric properties: key/value pairs. -/
abbrev JSObj := List (String × ℚ)

/-- `o.hasOwnProperty k`. -/
def hasProp : JSObj → String → Bool
  | [], _ => false
  | e :: rest, k => e.1 = k || hasProp rest k

/-- Property read `o[k]`: `none` models JS `undefined`. -/
def getProp : JSObj → String → Option ℚ
  | [], _ => none
  | e :: rest, k => if e.1 = k then some e.2 else getProp rest k

/-- Property write `o[k] = v`: updates the entry in place if the key
exists, otherwise appends a fresh entry. -/
def setProp : JSObj → String → ℚ → JSObj
  | [], k, v => [(k, v)]
  | e :: rest, k, v => if e.1 = k then (k, v) :: rest else e :: setProp rest k v

/-- The keys of an object. -/
def keys (o : JSObj) : List String :=
  o.map Prod.fst

/-- `simpleCopy(targetObj, srcObj)`: copies every own property of
`srcObj` onto `targetObj` (a for-in loop over `srcObj`). -/
def simpleCopy (targetObj srcObj : JSObj) : JSObj :=
  srcObj.foldl (fun t e => setProp t e.1 e.2) targetObj

/-- Numeric read used where the source reads a property it knows is
present (`params.originalState[prop]`, `params.to[prop]`); absent keys
default to 0 (the claims only touch present keys). -/
def getNum (o : JSObj) (k : String) : ℚ :=
  (getProp o k).getD 0

/-- An easing formula `(t, b, c, d) -> number`. -/
abbrev Easing := ℚ → ℚ → ℚ → ℚ → ℚ

/-- `Tweenable.prototype.formula.linear`: `c * t / d + b`. -/
def linear : Easing := fun t b c d => c * t / d + b

/-- `Tweenable.prototype.formula` as a name lookup: only `linear` is
registered in the source. -/
def formula (name : String) : Option Easing :=
  if name = "linear" then some linear else none

/-- The fields the source stores on `this._tweenParams`.  `fps` is an
`Option` because the source never assigns `params.fps` anywhere
(`tween()` assigns `step`, `to`, `duration`, `callback`, `easing`,
`timestamp`, `easingFunc`, `originalState`, `tweenController`, but not
`fps`), so reads of it yield JS `undefined`, modelled as `none`.
`hookStep` is `params.hook.step`: `none` when the `step` hook list was
never created, `some l` otherwise (`l` lists the callbacks by id). -/
structure TweenParams where
  «to» : JSObj
  originalState : JSObj
  duration : ℚ
  timestamp : ℚ
  easingFunc : Easing
  fps : Option ℚ
  hookStep : Option (List ℕ)

/-- The fields the source stores on `this._state` (the timer handle
`loopId` carries no observable value in this model). -/
structure RunState where
  current : JSObj
  isAnimating : Bool
  isPaused : Bool
  pausedAtTime : Option ℚ

/-- `tweenProps(currentTime, params, state)`: for every own property of
`state.current` that `params.to` also owns, recompute it through the
easing formula; other properties of `current` are untouched. -/
def tweenProps (currentTime : ℚ) (p : TweenParams) (current : JSObj) : JSObj :=
  current.map (fun e =>
    if hasProp p.«to» e.1 then
      (e.1, p.easingFunc (currentTime - p.timestamp) (getNum p.originalState e.1)
        (getNum p.«to» e.1 - getNum p.originalState e.1) p.duration)
    else e)

/-- The delay `scheduleUpdate(handler, fps)` passes to `setTimeout`,
namely `1000 / fps`.  `fps = none` models JS `undefined`:
`1000 / undefined` is `NaN`, which `setTimeout` clamps to a 0 delay. -/
def scheduleDelay (fps : Option ℚ) : ℚ :=
  match fps with
  | some f => 1000 / f
  | none => 0

/-- Observable side effects of the engine, in the order they happen.
`filterApplied g n` records that filter group `g`'s lifecycle callback
`n` ran; `hookCall id` records one `step`-hook callback; `schedule d`
records a `scheduleUpdate` whose `setTimeout` delay is `d`. -/
inductive Event where
  | filterApplied (group : String) (name : String)
  | interp
  | hookCall (id : ℕ)
  | stepCb
  | schedule (delay : ℚ)
  | stopCalled (gotoEnd : Bool)
  | callbackCall
deriving DecidableEq, Repr

/-- The process-wide `Tweenable.prototype.filter` registry: each group
name maps to the set of lifecycle callback names it defines.  (In this
model filter callbacks are observable events; the claims under test run
with registries whose callbacks do not mutate the tween state.) -/
abbrev FilterReg := List (String × List String)

/-- `applyFilter(filterName, applyTo, args)`: for each registered filter
group that defines `filterName`, invoke it (recorded as an event). -/
def applyFilter (reg : FilterReg) (filterName : String) : List Event :=
  (reg.filter (fun g => g.2.contains filterName)).map
    (fun g => Event.filterApplied g.1 filterName)

namespace Tween

/-- `Tween.stop(gotoEnd)` from the controller: always clears the pending
timer; when `gotoEnd` is true it copies `params.to` onto
`state.current`, clears `isAnimating` and invokes `params.callback`.
Returns the new state and whether the callback was invoked. -/
def stop (gotoEnd : Bool) (p : TweenParams) (st : RunState) : RunState × Bool :=
  if gotoEnd then
    ({ st with current := simpleCopy st.current p.«to», isAnimating := false }, true)
  else
    (st, false)

/-- `Tween.pause()`: clears the pending timer, records the pause time
and sets `isPaused`. -/
def pause (tNow : ℚ) (st : RunState) : RunState :=
  { st with pausedAtTime := some tNow, isPaused := true }

/-- `Tween.resume()`: when paused, executes
`params.timestamp += state.pausedAtTime - params.timestamp`, then calls
`scheduleUpdate` WITHOUT a second argument (the source omits `fps`
there), so the reschedule delay is `scheduleDelay none`.  Returns the
updated params and that delay. -/
def resume (p : TweenParams) (st : RunState) : TweenParams × ℚ :=
  let p' :=
    if st.isPaused then
      { p with timestamp := p.timestamp + (st.pausedAtTime.getD 0 - p.timestamp) }
    else p
  (p', scheduleDelay none)

end Tween

/-- `timeoutHandler(params, state)`, one tick at `currentTime = now()`.
If `currentTime < timestamp + duration && isAnimating`: apply the
`beforeTween` filters, run `tweenProps`, apply the `afterTween` filters,
invoke every callback of the `step` hook list if that list exists, call
the run's `step` callback, and reschedule with delay
`scheduleDelay params.fps`.  Otherwise: call `tweenController.stop(true)`.
Returns the new run state and the trace of events of this tick. -/
def timeoutHandler (reg : FilterReg) (currentTime : ℚ) (p : TweenParams)
    (st : RunState) : RunState × List Event :=
  if currentTime < p.timestamp + p.duration ∧ st.isAnimating then
    let cur1 := tweenProps currentTime p st.current
    let hookEvs :=
      match p.hookStep with
      | some l => l.map Event.hookCall
      | none => []
    ({ st with current := cur1 },
      applyFilter reg "beforeTween" ++ [Event.interp] ++ applyFilter reg "afterTween"
        ++ hookEvs ++ [Event.stepCb, Event.schedule (scheduleDelay p.fps)])
  else
    let (st', invoked) := Tween.stop true p st
    (st', [Event.stopCalled true] ++ if invoked then [Event.callbackCall] else [])

/-- The per-instance hook registry `this._hook`: hook name to list of
callbacks (callbacks are identified by positive numbers; JS compares
them with `===`, reference equality). -/
abbrev HookReg := List (String × List ℕ)

/-- Hook-list lookup `this._hook[name]` (`none` models `undefined`). -/
def lookupHook (hook : HookReg) (name : String) : Option (List ℕ) :=
  (hook.find? (fun e => e.1 = name)).map (fun e => e.2)

/-- Replace the list stored under `name` in the hook registry. -/
def setHook (hook : HookReg) (name : String) (l : List ℕ) : HookReg :=
  if hook.any (fun e => e.1 = name) then
    hook.map (fun e => if e.1 = name then (name, l) else e)
  else hook ++ [(name, l)]

/-- `hookAdd(hookName, hookFunc)`: create the list if absent, push. -/
def hookAdd (hook : HookReg) (name : String) (f : ℕ) : HookReg :=
  match lookupHook hook name with
  | none => setHook hook name [f]
  | some l => setHook hook name (l ++ [f])

/-- The body of `hookRemove`'s scan, executed with explicit fuel:
`for (i = list.length; i >= 0; i++) if (list[i] === f) list.splice(i, 1)`.
The JS loop exits only when `i >= 0` fails; `none` means the fuel ran
out with the loop still running. -/
def hookRemoveScan (f : ℕ) : ℕ → ℤ → List ℕ → Option (List ℕ)
  | 0, _, _ => none
  | fuel + 1, i, l =>
    if i < 0 then some l
    else
      hookRemoveScan f fuel (i + 1)
        (if l.get? i.toNat = some f then l.eraseIdx i.toNat else l)

/-- `hookRemove(hookName, hookFunc)`: early return when the name is not
registered; clear the whole list when `hookFunc` is falsy; otherwise run
the scan loop (with the given fuel; `none` = the loop has not finished
within that fuel). -/
def hookRemove (hook : HookReg) (name : String) (f : Option ℕ) (fuel : ℕ) :
    Option HookReg :=
  match lookupHook hook name with
  | none => some hook
  | some l =>
    match f with
    | none => some (setHook hook name [])
    | some fn => (hookRemoveScan fn fuel l.length l).map (setHook hook name)

/-- A `Tweenable` instance's own fields together with its current
`_tweenParams` / `_state` pair. -/
structure Instance where
  fps : ℚ
  easing : String
  duration : ℚ
  hook : HookReg
  tp : TweenParams
  st : RunState

/-- JS `a || b` on an optional number (`0` is falsy, as is `undefined`). -/
def jsOrQ (a : Option ℚ) (b : ℚ) : ℚ :=
  match a with
  | some x => if x = 0 then b else x
  | none => b

/-- JS `a || b` on an optional string (`undefined` is falsy). -/
def jsOrS (a : Option String) (b : String) : String :=
  match a with
  | some x => x
  | none => b

/-- `init(options)`: fresh hook registry and state, `fps` 30, easing
`"linear"`, duration 500 unless overridden.  `_tweenParams` starts with
only `owner`/`hook` set; its other fields are unset, given here as inert
defaults (`isAnimating` is JS `undefined`, i.e. falsy). -/
def init (optFps optDuration : Option ℚ) (optEasing : Option String) : Instance :=
  { fps := jsOrQ optFps 30
    easing := jsOrS optEasing "linear"
    duration := jsOrQ optDuration 500
    hook := []
    tp := { «to» := [], originalState := [], duration := 0, timestamp := 0,
            easingFunc := linear, fps := none, hookStep := none }
    st := { current := [], isAnimating := false, isPaused := false,
            pausedAtTime := none } }

/-- `tween(from, to, duration, callback, easing)` (shorthand path, `to`
given hence truthy): rejected with no controller while
`this._state.isAnimating`; otherwise sets `current = from || {}`,
`to`, `duration || this.duration`, `timestamp = now()`, resolves
`easingFunc` with fallback to `linear`, snapshots `originalState` via
`simpleCopy({}, current)`, leaves `params.fps` unassigned, sets
`isAnimating = true` and schedules the first tick with
`scheduleUpdate(..., this.fps)`.  Returns the updated instance, whether
a controller was returned, and the delay of that first schedule (`none`
when nothing was scheduled). -/
def tween (inst : Instance) (tNow : ℚ) (fromArg : Option JSObj) (toArg : JSObj)
    (durArg : Option ℚ) (easingArg : Option String) :
    Instance × Option Unit × Option ℚ :=
  if inst.st.isAnimating then (inst, none, none)
  else
    let current := fromArg.getD []
    let easingName := jsOrS easingArg inst.easing
    let p : TweenParams :=
      { «to» := toArg
        originalState := simpleCopy [] current
        duration := jsOrQ durArg inst.duration
        timestamp := tNow
        easingFunc := (formula easingName).getD linear
        fps := none
        hookStep := lookupHook inst.hook "step" }
    let st : RunState :=
      { current := current, isAnimating := true,
        isPaused := inst.st.isPaused, pausedAtTime := none }
    ({ inst with tp := p, st := st }, some (), some (scheduleDelay (some inst.fps)))

/-!
Reference-level model of the `current`/`from` objects, for the claims
about object identity.  A heap is a list of objects; a reference is an
index into it.  Only the `current` assignment of `tween()` and the
in-place mutation performed by `tweenProps` need this level of detail.
-/

/-- A heap of JS objects; references are indices. -/
abbrev Heap := List JSObj

/-- Dereference (out-of-range reads never occur in the modelled runs). -/
def heapRead (h : Heap) (r : ℕ) : JSObj :=
  (h.get? r).getD []

/-- In-place mutation of the object behind a reference. -/
def heapWrite (h : Heap) (r : ℕ) (o : JSObj) : Heap :=
  h.set r o

/-- Allocate a fresh object, returning the new heap and its reference. -/
def heapAlloc (h : Heap) (o : JSObj) : Heap × ℕ :=
  (h ++ [o], h.length)

/-- The `current` assignments of `tween()` at the reference level:
`this._state.current = {}` allocates an (immediately discarded) empty
object, then `this._state.current = from || {}` stores the CALLER'S
`from` reference itself when `from` was passed, or allocates a second
fresh empty object when `from` is absent. -/
def tweenAssignCurrent (h : Heap) (fromRef : Option ℕ) : Heap × ℕ :=
  let h1 := (heapAlloc h []).1
  match fromRef with
  | some r => (h1, r)
  | none => heapAlloc h1 []

/-- One tick's interpolation at the reference level: `tweenProps`
mutates the object behind `state.current` in place. -/
def tweenPropsRef (currentTime : ℚ) (p : TweenParams) (h : Heap) (curRef : ℕ) : Heap :=
  heapWrite h curRef (tweenProps currentTime p (heapRead h curRef))

/-!
Concrete runs used to evaluate the code on the scenarios of the claims.
-/

/-- The instance after `tween({x: 0}, {x: 100}, 1000)` at wall time 0 on
a default-configured instance (fps 30). -/
def run1000 : Instance :=
  (tween (init none none none) 0 (some [("x", 0)]) [("x", 100)] (some 1000) none).1

/-- Its run state after `pause()` at wall time 200 (elapsed 200 ms). -/
def run1000Paused : RunState :=
  Tween.pause 200 run1000.st

/-- Its tween params after `resume()` at wall time 700 (500 ms of
wall-clock time spent paused). -/
def run1000Resumed : TweenParams :=
  (Tween.resume run1000.tp run1000Paused).1

/-- A second identical run, used for the frame-rate evaluation. -/
def run1000b : Instance :=
  (tween (init none none none) 0 (some [("x", 0)]) [("x", 100)] (some 1000) none).1

/-- An instance with a tween in flight (`isAnimating = true`). -/
def busyInst : Instance :=
  (tween (init none none none) 0 (some [("x", 0)]) [("x", 1)] none none).1

/-- Sample tween parameters (`{x: 0} -> {x: 100, y: 7}` over 1000 ms). -/
def sampleParams : TweenParams :=
  { «to» := [("x", 100), ("y", 7)], originalState := [("x", 0)], duration := 1000,
    timestamp := 0, easingFunc := linear, fps := none, hookStep := none }

/-- A sample mid-run state (`x` mid-interpolation, `z` not in `to`). -/
def sampleState : RunState :=
  { current := [("x", 20), ("z", 3)], isAnimating := true, isPaused := false,
    pausedAtTime := none }

/-- A heap holding only the caller's `from` object `{x: 0}` at ref 0. -/
def fromHeap : Heap := [[("x", 0)]]

/-- Params of the run started from that object toward `{x: 100}`. -/
def fromHeapParams : TweenParams :=
  { «to» := [("x", 100)], originalState := [("x", 0)], duration := 1000,
    timestamp := 0, easingFunc := linear, fps := none, hookStep := none }

/-- Heap and `current` reference after `tween()`'s `current` assignment
with the caller's `from` passed. -/
def fromHeapRun : Heap × ℕ := tweenAssignCurrent fromHeap (some 0)

/-- That heap after one interpolation tick at wall time 500. -/
def fromHeapTicked : Heap :=
  tweenPropsRef 500 fromHeapParams fromHeapRun.1 fromHeapRun.2

/-- Sample params with a two-callback `step` hook list. -/
def hookedParams : TweenParams :=
  { sampleParams with hookStep := some [3, 4] }

/-! Basic lemmas about the object model. -/

theorem getProp_setProp (o : JSObj) (k k' : String) (v : ℚ) :
    getProp (setProp o k v) k' = if k' = k then some v else getProp o k' := by
  induction o with
  | nil =>
    by_cases h : k' = k
    · simp [setProp, getProp, h]
    · simp [setProp, getProp, h, if_neg (Ne.symm h)]
  | cons e rest ih =>
    simp only [setProp]
    by_cases he : e.1 = k
    · rw [if_pos he]
      by_cases hk : k' = k
      · simp [getProp, hk]
      · have h1 : ¬ k = k' := Ne.symm hk
        have h2 : ¬ e.1 = k' := fun hh => h1 (he.symm.trans hh)
        simp [getProp, h1, h2, hk]
    · rw [if_neg he]
      by_cases hk' : e.1 = k'
      · have h1 : ¬ k' = k := fun hh => he (hk'.trans hh)
        simp [getProp, hk', h1]
      · simp [getProp, hk', ih]

theorem getProp_eq_none_iff (o : JSObj) (k : String) :
    getProp o k = none ↔ k ∉ keys o := by
  induction o with
  | nil => simp [getProp, keys]
  | cons e rest ih =>
    simp only [getProp, keys, List.map_cons, List.mem_cons]
    by_cases he : e.1 = k
    · simp [he]
    · simp only [if_neg he]
      rw [ih]
      constructor
      · rintro h (h1 | h1)
        · exact he h1.symm
        · exact h (by simpa [keys] using h1)
      · intro h
        exact fun hm => h (Or.inr (by simpa [keys] using hm))

theorem hasProp_eq_false_iff (o : JSObj) (k : String) :
    hasProp o k = false ↔ getProp o k = none := by
  induction o with
  | nil => simp [hasProp, getProp]
  | cons e rest ih =>
    simp only [hasProp, getProp, Bool.or_eq_false_iff]
    by_cases he : e.1 = k <;> simp [he, ih]

theorem getProp_simpleCopy_not_mem (s : JSObj) : ∀ (t : JSObj) (k : String),
    k ∉ keys s → getProp (simpleCopy t s) k = getProp t k := by
  induction s with
  | nil => intro t k _; rfl
  | cons e rest ih =>
    intro t k h
    simp only [keys, List.map_cons, List.mem_cons, not_or] at h
    have hstep : simpleCopy t (e :: rest) = simpleCopy (setProp t e.1 e.2) rest := rfl
    rw [hstep, ih _ _ (fun hm => h.2 (by simpa [keys] using hm)), getProp_setProp]
    exact if_neg h.1

theorem getProp_simpleCopy_mem (s : JSObj) : ∀ (t : JSObj) (k : String) (v : ℚ),
    (keys s).Nodup → getProp s k = some v → getProp (simpleCopy t s) k = some v := by
  induction s with
  | nil => intro t k v _ h; simp [getProp] at h
  | cons e rest ih =>
    intro t k v hnd h
    have hstep : simpleCopy t (e :: rest) = simpleCopy (setProp t e.1 e.2) rest := rfl
    simp only [keys, List.map_cons, List.nodup_cons] at hnd
    simp only [getProp] at h
    by_cases he : e.1 = k
    · rw [if_pos he] at h
      have hk : k ∉ keys rest := by
        intro hm
        exact hnd.1 (he ▸ hm)
      rw [hstep, getProp_simpleCopy_not_mem _ _ _ hk, getProp_setProp]
      simp [he, h]
    · rw [if_neg he] at h
      rw [hstep]
      exact ih _ _ _ hnd.2 h

theorem getProp_tweenProps (currentTime : ℚ) (p : TweenParams) (cur : JSObj)
    (k : String) :
    getProp (tweenProps currentTime p cur) k =
      (getProp cur k).map (fun c =>
        if hasProp p.«to» k then
          p.easingFunc (currentTime - p.timestamp) (getNum p.originalState k)
            (getNum p.«to» k - getNum p.originalState k) p.duration
        else c) := by
  induction cur with
  | nil => simp [tweenProps, getProp]
  | cons e rest ih =>
    simp only [tweenProps, List.map_cons] at ih ⊢
    by_cases he : e.1 = k
    · subst he
      by_cases ht : hasProp p.«to» e.1
      · simp [ht, getProp]
      · simp [ht, getProp]
    · by_cases ht : hasProp p.«to» e.1
      · simpa [ht, getProp, he] using ih
      · simpa [ht, getProp, he] using ih

theorem hookRemoveScan_eq_none (f : ℕ) (fuel : ℕ) :
    ∀ (i : ℤ), 0 ≤ i → ∀ (l : List ℕ), hookRemoveScan f fuel i l = none := by
  induction fuel with
  | zero => intro i _ l; rfl
  | succ n ih =>
    intro i hi l
    simp only [hookRemoveScan, if_neg (not_lt.mpr hi)]
    exact ih (i + 1) (by omega) _

/-! Claim theorems. -/

theorem heapRead_append_left (h h2 : Heap) (r : ℕ) (hr : r < h.length) :
    heapRead (h ++ h2) r = heapRead h r := by
  simp [heapRead, List.getElem?_append_left hr]

theorem heapRead_write_self (h : Heap) (r : ℕ) (o : JSObj) (hr : r < h.length) :
    heapRead (heapWrite h r o) r = o := by
  simp [heapRead, heapWrite, List.getElem?_set_eq_of_lt _ hr]

theorem heapRead_concat_length (h : Heap) (o : JSObj) :
    heapRead (h ++ [o]) h.length = o := by
  simp [heapRead, List.getElem?_concat_length]

/-- C1: pause/resume is NOT transparent in the code.  For the run
`from={x:0}, to={x:100}, duration=1000` started at wall time 0, paused at
200 and resumed at 700 (500 ms paused), `resume` sets the logical
timestamp to the pause time 200.  The first tick after resume (wall 700)
therefore computes `x = 50`, counting the 500 paused ms as animated time,
and the tick at wall time 1200 — before the claimed completion time
1500 — already finishes the tween: `x` snaps to 100 and `isAnimating` is
cleared. -/
theorem pauseResume_not_transparent :
    run1000Resumed.timestamp = 200 ∧
    getProp (timeoutHandler [] 700 run1000Resumed run1000Paused).1.current "x" = some 50 ∧
    getProp (timeoutHandler [] 1200 run1000Resumed run1000Paused).1.current "x" = some 100 ∧
    (timeoutHandler [] 1200 run1000Resumed run1000Paused).1.isAnimating = false ∧
    (1200 : ℚ) < 1500 := by
  refine ⟨?_, ?_, ?_, ?_, by norm_num⟩ <;>
    norm_num [run1000Resumed, run1000Paused, run1000, Tween.resume, Tween.pause, tween,
      init, jsOrQ, jsOrS, lookupHook, simpleCopy, setProp, formula, timeoutHandler,
      Tween.stop, getProp, tweenProps, hasProp, getNum, scheduleDelay, applyFilter, linear]

/-- C2: the reschedules do NOT use a `1000/fps` delay.  On a
default-configured instance (fps 30) the params built by `tween()` carry
no `fps` (the source never assigns `params.fps`), so the end-of-tick
reschedule's `setTimeout` delay is 0, and `resume()` likewise calls
`scheduleUpdate` without the fps argument, also yielding delay 0 — while
the claimed delay `1000/30` is nonzero. -/
theorem reschedule_delay_not_fps :
    run1000b.tp.fps = none ∧
    (timeoutHandler [] 100 run1000b.tp run1000b.st).2.getLast? =
      some (Event.schedule 0) ∧
    (Tween.resume run1000b.tp (Tween.pause 50 run1000b.st)).2 = 0 ∧
    scheduleDelay (some 30) = 1000 / 30 ∧ (1000 / 30 : ℚ) ≠ 0 := by
  refine ⟨?_, ?_, ?_, rfl, by norm_num⟩ <;>
    norm_num [run1000b, tween, init, jsOrQ, jsOrS, lookupHook, simpleCopy, setProp,
      formula, timeoutHandler, Tween.stop, getProp, tweenProps, hasProp, getNum,
      scheduleDelay, applyFilter, linear, Tween.resume, Tween.pause]

/-- C3: `hookRemove(name, fn)` with a registered name and a callback
argument never terminates: its scan starts at the list's length and
increments while `i >= 0`, a condition that never fails, so no amount of
fuel completes the loop. -/
theorem hookRemove_never_returns (hook : HookReg) (name : String) (fn : ℕ)
    (l : List ℕ) (h : lookupHook hook name = some l) (fuel : ℕ) :
    hookRemove hook name (some fn) fuel = none := by
  simp only [hookRemove, h]
  rw [hookRemoveScan_eq_none fn fuel (l.length : ℤ) (Int.natCast_nonneg _) l]
  rfl

/-- Witness: removing the registered callback 5 from the "step" hook
list makes no progress in 1000 loop iterations. -/
theorem hookRemove_never_returns_witness :
    lookupHook (hookAdd [] "step" 5) "step" = some [5] ∧
    hookRemove (hookAdd [] "step" 5) "step" (some 5) 1000 = none :=
  ⟨rfl, hookRemove_never_returns (hookAdd [] "step" 5) "step" 5 [5] rfl 1000⟩

/-- C4: while `isAnimating` is true, `tween()` rejects the request: the
instance (its params and state included) is returned unchanged, no
controller is produced and nothing is scheduled. -/
theorem tween_rejected_while_animating (inst : Instance) (tNow : ℚ)
    (fromArg : Option JSObj) (toArg : JSObj) (durArg : Option ℚ)
    (easingArg : Option String) (h : inst.st.isAnimating = true) :
    tween inst tNow fromArg toArg durArg easingArg = (inst, none, none) := by
  simp [tween, h]

/-- Witness: a busy instance rejects a second `tween()` call. -/
theorem tween_rejected_while_animating_witness :
    busyInst.st.isAnimating = true ∧
    tween busyInst 5 (some [("y", 2)]) [("y", 3)] none none = (busyInst, none, none) :=
  ⟨rfl, tween_rejected_while_animating busyInst 5 (some [("y", 2)]) [("y", 3)] none none rfl⟩

/-- C5: `stop(gotoEnd)` invokes the callback iff `gotoEnd` is true.
With `gotoEnd = true` it copies every property of `to` over `current`
(properties of `current` outside `to` keep their values), clears
`isAnimating`, and reports the callback invoked; with `gotoEnd = false`
it leaves the state exactly as it was and does not invoke the
callback. -/
theorem stop_gotoEnd_spec (p : TweenParams) (st : RunState)
    (hnd : (keys p.«to»).Nodup) :
    (Tween.stop true p st).2 = true ∧
    (Tween.stop true p st).1.isAnimating = false ∧
    (∀ k v, getProp p.«to» k = some v →
      getProp (Tween.stop true p st).1.current k = some v) ∧
    (∀ k, getProp p.«to» k = none →
      getProp (Tween.stop true p st).1.current k = getProp st.current k) ∧
    Tween.stop false p st = (st, false) := by
  refine ⟨rfl, rfl, ?_, ?_, rfl⟩
  · intro k v hv
    exact getProp_simpleCopy_mem _ _ _ _ hnd hv
  · intro k hk
    exact getProp_simpleCopy_not_mem _ _ _ ((getProp_eq_none_iff _ _).mp hk)

/-- Witness: stopping the sample run with `gotoEnd = true` snaps `x` to
100 and leaves `z` (absent from `to`) at 3. -/
theorem stop_gotoEnd_spec_witness :
    (keys sampleParams.«to»).Nodup ∧
    ((Tween.stop true sampleParams sampleState).2 = true ∧
      getProp (Tween.stop true sampleParams sampleState).1.current "x" = some 100 ∧
      getProp (Tween.stop true sampleParams sampleState).1.current "z" =
        getProp sampleState.current "z") := by
  have hnd : (keys sampleParams.«to»).Nodup := by
    simp [sampleParams, keys]
  have h := stop_gotoEnd_spec sampleParams sampleState hnd
  exact ⟨hnd, h.1, h.2.2.1 "x" 100 rfl, h.2.2.2.1 "z" rfl⟩

/-- C6: one interpolation step maps `current` pointwise: keys present in
both `current` and `to` get the eased value
`easingFunc(currentTime - timestamp, originalState[k], to[k] - originalState[k], duration)`;
keys of `current` absent from `to` keep their value; keys only in `to`
are never added. -/
theorem tweenProps_pointwise (currentTime : ℚ) (p : TweenParams) (cur : JSObj) :
    (∀ k c t o, getProp cur k = some c → getProp p.«to» k = some t →
        getProp p.originalState k = some o →
        getProp (tweenProps currentTime p cur) k =
          some (p.easingFunc (currentTime - p.timestamp) o (t - o) p.duration)) ∧
    (∀ k, getProp p.«to» k = none →
        getProp (tweenProps currentTime p cur) k = getProp cur k) ∧
    (∀ k, getProp cur k = none → getProp (tweenProps currentTime p cur) k = none) := by
  refine ⟨?_, ?_, ?_⟩
  · intro k c t o hc ht ho
    have hhas : hasProp p.«to» k = true := by
      rcases hb : hasProp p.«to» k with _ | _
      · rw [(hasProp_eq_false_iff _ _).mp hb] at ht
        exact absurd ht (by simp)
      · rfl
    rw [getProp_tweenProps, hc, Option.map_some']
    simp [hhas, getNum, ht, ho]
  · intro k hk
    have hhas : hasProp p.«to» k = false := (hasProp_eq_false_iff _ _).mpr hk
    rw [getProp_tweenProps, hhas]
    cases getProp cur k <;> rfl
  · intro k hk
    rw [getProp_tweenProps, hk]
    rfl

/-- Witness: at elapsed 500 of the sample run, `x` (in both `current`
and `to`) becomes `linear(500, 0, 100, 1000) = 50` and `z` (absent from
`to`) keeps its value. -/
theorem tweenProps_pointwise_witness :
    (getProp sampleState.current "x" = some 20 ∧
      getProp sampleParams.«to» "x" = some 100 ∧
      getProp sampleParams.originalState "x" = some 0 ∧
      getProp sampleState.current "q" = none) ∧
    (getProp (tweenProps 500 sampleParams sampleState.current) "x" =
        some (sampleParams.easingFunc (500 - sampleParams.timestamp) 0 (100 - 0)
          sampleParams.duration) ∧
      getProp (tweenProps 500 sampleParams sampleState.current) "q" = none) := by
  have h := tweenProps_pointwise 500 sampleParams sampleState.current
  exact ⟨⟨rfl, rfl, rfl, rfl⟩, h.1 "x" 20 100 0 rfl rfl rfl, h.2.2 "q" rfl⟩

/-- C7 counterexample: `current` is NOT a value snapshot of `from`.  In
the reference-level model, `tween({x:0}, {x:100}, 1000)` stores the
caller's `from` reference itself as `current`; after a single tick at
wall time 500 the object behind the caller's reference holds `x = 50`,
no longer its original value. -/
theorem from_object_mutated_by_tick :
    fromHeapRun.2 = 0 ∧
    heapRead fromHeap 0 = [("x", 0)] ∧
    heapRead fromHeapTicked 0 = [("x", 50)] ∧
    ([("x", 50)] : JSObj) ≠ [("x", 0)] := by
  refine ⟨rfl, rfl, ?_, by norm_num⟩
  norm_num [fromHeapTicked, fromHeapRun, fromHeap, fromHeapParams, tweenAssignCurrent,
    heapAlloc, tweenPropsRef, heapWrite, heapRead, tweenProps, hasProp, getNum,
    getProp, linear]

/-- C7 amended: `tween()` stores the caller's `from` object itself as
`current` (no snapshot): the returned reference is the `from` reference,
every interpolation tick's mutation is visible through the caller's
reference, and when `from` is omitted `current` is a freshly allocated
empty object. -/
theorem current_aliases_from (h : Heap) (r : ℕ) (currentTime : ℚ)
    (p : TweenParams) (hr : r < h.length) :
    (tweenAssignCurrent h (some r)).2 = r ∧
    heapRead (tweenPropsRef currentTime p (tweenAssignCurrent h (some r)).1 r) r
      = tweenProps currentTime p (heapRead h r) ∧
    heapRead (tweenAssignCurrent h none).1 (tweenAssignCurrent h none).2 = [] ∧
    h.length ≤ (tweenAssignCurrent h none).2 := by
  have h1 : (tweenAssignCurrent h (some r)).1 = h ++ [[]] := rfl
  have hr1 : r < (h ++ [[]]).length := by
    simp only [List.length_append, List.length_cons, List.length_nil]
    omega
  refine ⟨rfl, ?_, ?_, ?_⟩
  · rw [h1, tweenPropsRef, heapRead_write_self _ _ _ hr1,
      heapRead_append_left _ _ _ hr]
  · have h2 : (tweenAssignCurrent h none).1 = (h ++ [[]]) ++ [[]] := rfl
    have h3 : (tweenAssignCurrent h none).2 = (h ++ [[]]).length := rfl
    rw [h2, h3, heapRead_concat_length]
  · have h3 : (tweenAssignCurrent h none).2 = (h ++ [[]]).length := rfl
    rw [h3]
    simp

/-- Witness: on the concrete one-object heap, `current` is the `from`
reference and the tick's mutation is the pointwise interpolation of the
`from` object. -/
theorem current_aliases_from_witness :
    0 < fromHeap.length ∧
    ((tweenAssignCurrent fromHeap (some 0)).2 = 0 ∧
      heapRead (tweenPropsRef 500 fromHeapParams
          (tweenAssignCurrent fromHeap (some 0)).1 0) 0
        = tweenProps 500 fromHeapParams (heapRead fromHeap 0)) := by
  have h := current_aliases_from fromHeap 0 500 fromHeapParams (by norm_num [fromHeap])
  exact ⟨by norm_num [fromHeap], h.1, h.2.1⟩

/-- C8: on a tick whose continue condition holds, the trace is exactly:
the `beforeTween` filters, the interpolation, the `afterTween` filters,
each callback of the `step` hook list, the run's `step` callback, and
the reschedule — in that order, with the interpolation and `step`
callback occurring exactly once. -/
theorem tick_effect_order (reg : FilterReg) (currentTime : ℚ) (p : TweenParams)
    (st : RunState) (h1 : currentTime < p.timestamp + p.duration)
    (h2 : st.isAnimating = true) :
    (timeoutHandler reg currentTime p st).2 =
      applyFilter reg "beforeTween" ++ [Event.interp] ++ applyFilter reg "afterTween"
        ++ (p.hookStep.getD []).map Event.hookCall
        ++ [Event.stepCb, Event.schedule (scheduleDelay p.fps)] ∧
    (timeoutHandler reg currentTime p st).2.count Event.interp = 1 ∧
    (timeoutHandler reg currentTime p st).2.count Event.stepCb = 1 := by
  have hc : currentTime < p.timestamp + p.duration ∧ st.isAnimating := ⟨h1, by simp [h2]⟩
  have htrace : (timeoutHandler reg currentTime p st).2 =
      applyFilter reg "beforeTween" ++ [Event.interp] ++ applyFilter reg "afterTween"
        ++ (p.hookStep.getD []).map Event.hookCall
        ++ [Event.stepCb, Event.schedule (scheduleDelay p.fps)] := by
    simp only [timeoutHandler, if_pos hc]
    cases p.hookStep <;> rfl
  have hfil : ∀ n, (applyFilter reg n).count Event.interp = 0 ∧
      (applyFilter reg n).count Event.stepCb = 0 := by
    intro n
    constructor <;>
      · rw [List.count_eq_zero]
        intro ha
        simp [applyFilter] at ha
  have hhook : ∀ (l : List ℕ), (l.map Event.hookCall).count Event.interp = 0 ∧
      (l.map Event.hookCall).count Event.stepCb = 0 := by
    intro l
    constructor <;>
      · rw [List.count_eq_zero]
        intro ha
        simp at ha
  refine ⟨htrace, ?_, ?_⟩ <;>
    simp [htrace, List.count_append, (hfil _).1, (hfil _).2, (hhook _).1, (hhook _).2,
      List.count_cons, List.count_singleton]

/-- Witness: a concrete tick with one filter group and a two-callback
`step` hook list produces the claimed trace. -/
theorem tick_effect_order_witness :
    ((5 : ℚ) < hookedParams.timestamp + hookedParams.duration ∧
      sampleState.isAnimating = true) ∧
    (timeoutHandler [("g1", ["beforeTween", "afterTween"])] 5 hookedParams
        sampleState).2 =
      applyFilter [("g1", ["beforeTween", "afterTween"])] "beforeTween"
        ++ [Event.interp]
        ++ applyFilter [("g1", ["beforeTween", "afterTween"])] "afterTween"
        ++ (hookedParams.hookStep.getD []).map Event.hookCall
        ++ [Event.stepCb, Event.schedule (scheduleDelay hookedParams.fps)] := by
  have h := tick_effect_order [("g1", ["beforeTween", "afterTween"])] 5 hookedParams
    sampleState (by norm_num [hookedParams, sampleParams]) rfl
  exact ⟨⟨by norm_num [hookedParams, sampleParams], rfl⟩, h.1⟩

/-- C9: after `stop()` without `gotoEnd` on a running tween,
`isAnimating` remains true, so any later `tween()` call on an instance
carrying that state is rejected: no controller, instance unchanged. -/
theorem stop_false_keeps_blocking (p : TweenParams) (st : RunState)
    (inst : Instance) (tNow : ℚ) (fromArg : Option JSObj) (toArg : JSObj)
    (durArg : Option ℚ) (easingArg : Option String)
    (hA : st.isAnimating = true) (hI : inst.st = (Tween.stop false p st).1) :
    (Tween.stop false p st).1.isAnimating = true ∧
    tween inst tNow fromArg toArg durArg easingArg = (inst, none, none) := by
  have h1 : (Tween.stop false p st).1 = st := rfl
  have h2 : inst.st.isAnimating = true := by rw [hI, h1]; exact hA
  exact ⟨h1 ▸ hA, by simp [tween, h2]⟩

/-- Witness: stopping the busy instance's run without `gotoEnd` leaves
it animating and still rejecting new tweens. -/
theorem stop_false_keeps_blocking_witness :
    (busyInst.st.isAnimating = true ∧
      busyInst.st = (Tween.stop false busyInst.tp busyInst.st).1) ∧
    ((Tween.stop false busyInst.tp busyInst.st).1.isAnimating = true ∧
      tween busyInst 9 (some [("y", 2)]) [("y", 3)] none none =
        (busyInst, none, none)) :=
  ⟨⟨rfl, rfl⟩, stop_false_keeps_blocking busyInst.tp busyInst.st busyInst 9
    (some [("y", 2)]) [("y", 3)] none none rfl rfl⟩

/-- C10: the `linear` formula is `c * t / d + b`; for nonzero duration
it yields `b` at `t = 0` and `b + c` at `t = d`. -/
theorem linear_formula (t b c d : ℚ) (hd : d ≠ 0) :
    linear t b c d = c * t / d + b ∧ linear 0 b c d = b ∧
    linear d b c d = b + c := by
  refine ⟨rfl, by simp [linear], ?_⟩
  simp [linear, mul_div_assoc, div_self hd, add_comm]

/-- Witness: `linear` on `t=1, b=2, c=3, d=4`. -/
theorem linear_formula_witness :
    (4 : ℚ) ≠ 0 ∧
    (linear 1 2 3 4 = 3 * 1 / 4 + 2 ∧ linear 0 2 3 4 = 2 ∧
      linear 4 2 3 4 = 2 + 3) :=
  ⟨by norm_num, linear_formula 1 2 3 4 (by norm_num)⟩

end Shifty
